import Mathlib

/-!
Shallow embedding of the VoxOver voiceover pipeline (`genai.py`, `utils.py`).

Audio clips are idealised as a small inductive type recording how a track was
derived (file source, volume scaling, subclip, composite); float durations and
timestamps are idealised as rationals.  The MoviePy version shims that probe
for methods with `hasattr` are modelled by a capability record.
-/

/-- A MoviePy audio clip as manipulated by `utils.py`:
a clip read from a file (with an identifier and a duration), a
volume-scaled clip (`with_volume_scaled` / `volumex`), a subclip
(`subclipped(0, t_end)` / `subclip(0, t_end)`), or a
`CompositeAudioClip([a, b])` of two tracks (the only arity the source uses). -/
inductive ATrack : Type where
  | file : ℕ → ℚ → ATrack
  | scaled : ATrack → ℚ → ATrack
  | sub : ATrack → ℚ → ATrack
  | composite : ATrack → ATrack → ATrack
deriving DecidableEq

/-- Duration of a clip: volume scaling preserves duration, `subclip(0, t_end)`
has duration `t_end`, and a `CompositeAudioClip` ends when its last member
ends (members start at 0, so its duration is the max of the durations). -/
def ATrack.dur : ATrack → ℚ
  | .file _ d => d
  | .scaled c _ => c.dur
  | .sub _ t => t
  | .composite a b => max a.dur b.dur

/-- Whether the track is a `CompositeAudioClip`. -/
def ATrack.isComposite : ATrack → Bool
  | .composite _ _ => true
  | _ => false

/-- The identifier of the single file source a non-composite track was derived
from (`none` for a composite). -/
def ATrack.baseId : ATrack → Option ℕ
  | .file i _ => some i
  | .scaled c _ => c.baseId
  | .sub c _ => c.baseId
  | .composite _ _ => none

/-- Which MoviePy methods `hasattr` finds on a clip object
(`utils.py` probes `with_volume_scaled`, `volumex`, `subclipped`). -/
structure ClipCaps where
  with_volume_scaled : Bool
  volumex : Bool
  subclipped : Bool
deriving DecidableEq

/-- Model of `utils.py` `_scale_volume(audio_clip, volume)`: returns the clip itself
when `volume == 1.0` or the clip is `None`; otherwise applies
`with_volume_scaled` (MoviePy v2) or `volumex` (MoviePy v1) when available,
and returns the clip unchanged when neither method exists. -/
def _scale_volume (caps : ClipCaps) (audio_clip : Option ATrack) (volume : ℚ) :
    Option ATrack :=
  if volume = 1 ∨ audio_clip = none then audio_clip
  else
    match audio_clip with
    | none => none
    | some c =>
      if caps.with_volume_scaled then some (ATrack.scaled c volume)
      else if caps.volumex then some (ATrack.scaled c volume)
      else some c

/-- Model of `utils.py` `_subclip(audio_clip, t_end)`: `None` passes through; otherwise
`subclipped(0, t_end)` (MoviePy v2) or `subclip(0, t_end)` (MoviePy v1),
which have the same meaning. -/
def _subclip (caps : ClipCaps) (audio_clip : Option ATrack) (t_end : ℚ) :
    Option ATrack :=
  match audio_clip with
  | none => none
  | some c =>
    if caps.subclipped then some (ATrack.sub c t_end)
    else some (ATrack.sub c t_end)

/-- A video clip: its duration and its (possibly absent) own audio track. -/
structure VClip where
  duration : ℚ
  audio : Option ATrack
deriving DecidableEq

/-- Model of `utils.py` `_set_audio(video_clip, audio_clip)`: both the v2 `with_audio`
and the v1 `set_audio` branch attach the audio track, leaving the video
stream (hence its duration) unchanged. -/
def _set_audio (video_clip : VClip) (audio_clip : Option ATrack) : VClip :=
  ⟨video_clip.duration, audio_clip⟩

/-- The audio-composition data flow of `utils.py` `merge_video_with_audio`
(lines 154-169): scale the original audio by `video_volume`, scale the added
narration clip by `audio_volume`, trim the added clip to the video duration
when it is longer, and composite with the original audio when present
(narration alone otherwise).  `_scale_volume` applied to a present clip is
always present; `getD` supplies an unreachable default. -/
def merge_final_audio (caps : ClipCaps) (video_duration : ℚ)
    (original : Option ATrack) (added_audio_clip : ATrack)
    (video_volume audio_volume : ℚ) : ATrack :=
  let original_audio := _scale_volume caps original video_volume
  let added1 := (_scale_volume caps (some added_audio_clip) audio_volume).getD
    added_audio_clip
  let added2 :=
    if added1.dur > video_duration then
      (_subclip caps (some added1) video_duration).getD added1
    else added1
  match original_audio with
  | some o => ATrack.composite o added2
  | none => added2

/-- The final clip written by `merge_video_with_audio`: the input video with
the composed audio attached via `_set_audio`. -/
def merge_final_clip (caps : ClipCaps) (video_clip : VClip)
    (added_audio_clip : ATrack) (video_volume audio_volume : ℚ) : VClip :=
  _set_audio video_clip
    (some (merge_final_audio caps video_clip.duration video_clip.audio
      added_audio_clip video_volume audio_volume))

/-- Scaling a present clip yields a present clip of the same duration. -/
theorem scale_volume_getD_dur (caps : ClipCaps) (c : ATrack) (v : ℚ) :
    ((_scale_volume caps (some c) v).getD c).dur = c.dur := by
  unfold _scale_volume
  by_cases h1 : v = 1 <;>
    simp [h1] <;>
    by_cases h2 : caps.with_volume_scaled <;>
      by_cases h3 : caps.volumex <;>
        simp [h2, h3, ATrack.dur]

/-- Scaling a file clip yields a non-composite clip with the same base
source. -/
theorem scale_volume_getD_file (caps : ClipCaps) (i : ℕ) (d v : ℚ) :
    ((_scale_volume caps (some (ATrack.file i d)) v).getD
        (ATrack.file i d)).isComposite = false ∧
    ((_scale_volume caps (some (ATrack.file i d)) v).getD
        (ATrack.file i d)).baseId = some i := by
  unfold _scale_volume
  by_cases h1 : v = 1 <;>
    simp [h1] <;>
    by_cases h2 : caps.with_volume_scaled <;>
      by_cases h3 : caps.volumex <;>
        simp [h2, h3, ATrack.isComposite, ATrack.baseId]

/-- Scaling a clip that is present (`is not None`) yields a present clip of
the same duration. -/
theorem scale_volume_some (caps : ClipCaps) (c : ATrack) (v : ℚ) :
    ∃ c', _scale_volume caps (some c) v = some c' ∧ c'.dur = c.dur := by
  unfold _scale_volume
  by_cases h1 : v = 1
  · exact ⟨c, by simp [h1], rfl⟩
  · by_cases h2 : caps.with_volume_scaled <;>
      by_cases h3 : caps.volumex
    · exact ⟨ATrack.scaled c v, by simp [h1, h2], rfl⟩
    · exact ⟨ATrack.scaled c v, by simp [h1, h2], rfl⟩
    · exact ⟨ATrack.scaled c v, by simp [h1, h2, h3], rfl⟩
    · exact ⟨c, by simp [h1, h2, h3], rfl⟩

/-- An absent (`None`) clip passes through `_scale_volume` unchanged. -/
theorem scale_volume_none (caps : ClipCaps) (v : ℚ) :
    _scale_volume caps none v = none := by
  unfold _scale_volume
  simp

/-- Both version branches of `_subclip` produce the subclip `[0, t_end]`. -/
theorem subclip_some (caps : ClipCaps) (c : ATrack) (t_end : ℚ) :
    _subclip caps (some c) t_end = some (ATrack.sub c t_end) := by
  unfold _subclip
  simp

/-- C4: `_scale_volume` with a multiplier of exactly 1.0 returns the very
same track reference unchanged, for every clip (present or absent) and every
capability set, without constructing any new track. -/
theorem c4_scale_volume_identity (caps : ClipCaps) (audio_clip : Option ATrack) :
    _scale_volume caps audio_clip 1 = audio_clip := by
  unfold _scale_volume
  simp

/-- C10: for a present clip whose object supports neither `with_volume_scaled`
nor `volumex`, `_scale_volume` with any multiplier returns the clip unchanged
(and, being total, raises no error): the requested volume change is silently
dropped. -/
theorem c10_no_method_noop (caps : ClipCaps) (c : ATrack) (v : ℚ)
    (h2 : caps.with_volume_scaled = false) (h3 : caps.volumex = false) :
    _scale_volume caps (some c) v = some c := by
  unfold _scale_volume
  by_cases h1 : v = 1 <;> simp [h1, h2, h3]

/-- Witness for C10 at a concrete clip and a multiplier different from 1.0. -/
theorem c10_no_method_noop_witness :
    _scale_volume ⟨false, false, true⟩ (some (ATrack.file 7 10)) (1/2) =
      some (ATrack.file 7 10) :=
  c10_no_method_noop ⟨false, false, true⟩ (ATrack.file 7 10) (1/2) rfl rfl

/-- C5: whenever the narration audio's duration exceeds the video's duration,
`merge_video_with_audio` trims the narration to the video's duration, so the
composed output's audio track duration equals the video duration, and the
video is never extended (the final clip keeps the video's duration).  The
hypothesis on the original track reflects that `video_clip.audio` is the
video's own embedded audio, whose duration does not exceed the video's. -/
theorem c5_narration_trimmed (caps : ClipCaps) (video_clip : VClip) (aid : ℕ)
    (nd vv av : ℚ) (hlong : video_clip.duration < nd)
    (horig : ∀ oa, video_clip.audio = some oa → oa.dur ≤ video_clip.duration) :
    (merge_final_audio caps video_clip.duration video_clip.audio
        (ATrack.file aid nd) vv av).dur = video_clip.duration ∧
    (merge_final_clip caps video_clip (ATrack.file aid nd) vv av).duration =
      video_clip.duration := by
  refine ⟨?_, rfl⟩
  unfold merge_final_audio
  dsimp only
  have hadd : ((_scale_volume caps (some (ATrack.file aid nd)) av).getD
      (ATrack.file aid nd)).dur = nd :=
    scale_volume_getD_dur caps (ATrack.file aid nd) av
  rw [if_pos (by rw [hadd]; exact hlong), subclip_some]
  rcases ha : video_clip.audio with _ | oa
  · rw [scale_volume_none]
    simp [ATrack.dur]
  · obtain ⟨o', ho', hdo'⟩ := scale_volume_some caps oa vv
    rw [ho']
    simp only [Option.getD_some, ATrack.dur]
    exact max_eq_right (le_trans (le_of_eq hdo') (horig oa ha))

/-- Witness for C5: a 10-second video with no original audio and a 12-second
narration track yields a 10-second final audio track and an unchanged video
duration. -/
theorem c5_narration_trimmed_witness :
    (merge_final_audio ⟨true, true, true⟩ 10 none (ATrack.file 3 12) 1 1).dur
        = 10 ∧
    (merge_final_clip ⟨true, true, true⟩ ⟨10, none⟩ (ATrack.file 3 12) 1
        1).duration = 10 :=
  c5_narration_trimmed ⟨true, true, true⟩ ⟨10, none⟩ 3 12 1 1
    (by norm_num) (by intro oa h; cases h)

/-- C6: when the original video has no audio track, the merged output's audio
is exactly the (volume-scaled, possibly trimmed) narration track alone — not a
composite, and derived from the narration file source alone; when the
original audio is present, the output audio is the composite of the
(volume-scaled) original track and that same narration-derived track. -/
theorem c6_composition (caps : ClipCaps) (vd : ℚ) (aid : ℕ) (nd vv av : ℚ) :
    (merge_final_audio caps vd none (ATrack.file aid nd) vv av).isComposite
        = false ∧
    (merge_final_audio caps vd none (ATrack.file aid nd) vv av).baseId
        = some aid ∧
    ∀ oa : ATrack, merge_final_audio caps vd (some oa) (ATrack.file aid nd)
        vv av =
      ATrack.composite ((_scale_volume caps (some oa) vv).getD oa)
        (merge_final_audio caps vd none (ATrack.file aid nd) vv av) := by
  have hfile := scale_volume_getD_file caps aid nd av
  refine ⟨?_, ?_, ?_⟩
  · simp only [merge_final_audio, scale_volume_none]
    by_cases hc : ((_scale_volume caps (some (ATrack.file aid nd)) av).getD
        (ATrack.file aid nd)).dur > vd
    · rw [if_pos hc, subclip_some]
      simp [ATrack.isComposite]
    · rw [if_neg hc]
      exact hfile.1
  · simp only [merge_final_audio, scale_volume_none]
    by_cases hc : ((_scale_volume caps (some (ATrack.file aid nd)) av).getD
        (ATrack.file aid nd)).dur > vd
    · rw [if_pos hc, subclip_some]
      simp only [Option.getD_some, ATrack.baseId]
      exact hfile.2
    · rw [if_neg hc]
      exact hfile.2
  · intro oa
    obtain ⟨o', ho', -⟩ := scale_volume_some caps oa vv
    simp only [merge_final_audio, scale_volume_none, ho', Option.getD_some]

/-- Model of `genai.py` line 150: the sampled timestamps.  For `n_frames <= 1` a single
frame at timestamp 0; otherwise
`[i * duration / (n_frames - 1) for i in range(n_frames)]`. -/
def sample_timestamps (duration : ℚ) (n_frames : ℤ) : List ℚ :=
  if n_frames ≤ 1 then [0]
  else (List.range n_frames.toNat).map
    (fun (i : ℕ) => (i : ℚ) * duration / ((n_frames : ℚ) - 1))

/-- Environment and fault oracle for one call to
`GenAI.generate_video_description`: whether the video path exists, the value
of `video.duration` (`none` models Python `None`, which the code coerces to
`0.0`), the requested frame count, at which frame index `video.save_frame`
raises (if any), and whether `video.close()` raises. -/
structure VDOracle where
  path_exists : Bool
  raw_duration : Option ℚ
  n_frames : ℤ
  save_frame_fails_at : Option ℕ
  close_fails : Bool
deriving DecidableEq

/-- Outcome of a `generate_video_description` call: success, the
`FileNotFoundError` for a missing path, the `ValueError` for a non-positive
duration, a `save_frame` failure, or an exception raised by `video.close()`
itself. -/
inductive VDOutcome where
  | ok
  | file_not_found
  | zero_duration
  | save_frame_error
  | close_error
deriving DecidableEq

/-- Observable trace of a `generate_video_description` call: whether the
video was opened, the timestamps of the frame files written (in order),
whether `video.close()` was called, and the outcome. -/
structure VDRun where
  video_opened : Bool
  frames_written : List ℚ
  close_called : Bool
  outcome : VDOutcome
deriving DecidableEq

/-- Model of `genai.py` lines 133-159, `GenAI.generate_video_description`: check the
path; open the video; compute `duration = float(video.duration) if
video.duration else 0.0`; raise `ValueError` when `duration <= 0`; otherwise
save a frame per sampled timestamp.  The `finally` block runs `video.close()`
bare (no surrounding `try`/`except`), so a close failure propagates as the
call's exception, replacing any in-flight primary error (Python `finally`
semantics). -/
def generate_video_description_run (o : VDOracle) : VDRun :=
  if o.path_exists = false then ⟨false, [], false, .file_not_found⟩
  else
    let duration : ℚ := o.raw_duration.getD 0
    if duration ≤ 0 then
      ⟨true, [], true, if o.close_fails then .close_error else .zero_duration⟩
    else
      let ts := sample_timestamps duration o.n_frames
      let written := match o.save_frame_fails_at with
        | some k => if k < ts.length then ts.take k else ts
        | none => ts
      let primary := match o.save_frame_fails_at with
        | some k => if k < ts.length then VDOutcome.save_frame_error
                    else VDOutcome.ok
        | none => VDOutcome.ok
      ⟨true, written, true, if o.close_fails then .close_error else primary⟩

/-- Fault oracle for one call to `utils.py` `merge_video_with_audio`: whether
`VideoFileClip(video_path)` raises, whether `AudioFileClip(audio_path)`
raises, whether a step of the `try` body raises before `final_clip` is
assigned, whether `write_videofile` raises (after `final_clip` is assigned),
and whether each of the three `close()` calls in the `finally` block
raises. -/
structure MergeOracle where
  open_video_fails : Bool
  open_audio_fails : Bool
  body_fails_before_final : Bool
  write_fails : Bool
  close_added_fails : Bool
  close_video_fails : Bool
  close_final_fails : Bool
deriving DecidableEq

/-- Outcome of a `merge_video_with_audio` call. -/
inductive MergeOutcome where
  | ok
  | open_video_error
  | open_audio_error
  | body_error
  | write_error
deriving DecidableEq

/-- Observable trace of a `merge_video_with_audio` call: which clips were
opened, which `close()` statements in the `finally` block were executed, and
the outcome. -/
structure MergeRun where
  video_opened : Bool
  audio_opened : Bool
  close_added_attempted : Bool
  close_video_attempted : Bool
  close_final_attempted : Bool
  outcome : MergeOutcome
deriving DecidableEq

/-- Model of `utils.py` lines 150-195, the control flow of `merge_video_with_audio`.
`VideoFileClip` and `AudioFileClip` are opened on lines 150-151, *before* the
`try` block: if opening the audio clip raises, the `finally` block never runs
and the already-opened video clip is not closed.  Once the `try` block is
entered, the `finally` block executes all three `close()` statements, each
wrapped in its own `try`/`except Exception: pass`, so close failures (and the
`NameError` when `final_clip` was never assigned) are swallowed and the
primary outcome is returned or re-raised unchanged. -/
def merge_run (o : MergeOracle) : MergeRun :=
  if o.open_video_fails then ⟨false, false, false, false, false, .open_video_error⟩
  else if o.open_audio_fails then ⟨true, false, false, false, false, .open_audio_error⟩
  else
    let primary : MergeOutcome :=
      if o.body_fails_before_final then .body_error
      else if o.write_fails then .write_error
      else .ok
    ⟨true, true, true, true, true, primary⟩

/-- Index formula for the sampled timestamps when `n_frames >= 2`. -/
theorem sample_timestamps_getElem (D : ℚ) (n : ℤ) (hn : 2 ≤ n) (i : ℕ)
    (hi : i < n.toNat) :
    (sample_timestamps D n)[i]? = some ((i : ℚ) * D / ((n : ℚ) - 1)) := by
  unfold sample_timestamps
  rw [if_neg (by omega)]
  have hr : (List.range n.toNat)[i]? = some i := by
    simp [hi]
  rw [List.getElem?_map, hr]
  rfl

/-- C1: for a video of duration `D > 0` and a frame count `n >= 2`,
`generate_video_description` samples exactly `n` frames, at timestamps
`i * D / (n - 1)` for `i` in `[0, n)`, so the first timestamp is 0 and the
last is `D`; for `n = 1` the only timestamp is 0. -/
theorem c1_frame_timestamps (D : ℚ) (n : ℤ) (hD : 0 < D) (hn : 2 ≤ n) :
    (generate_video_description_run
        ⟨true, some D, n, none, false⟩).frames_written.length = n.toNat ∧
    (∀ i : ℕ, i < n.toNat →
      (generate_video_description_run
        ⟨true, some D, n, none, false⟩).frames_written[i]?
        = some ((i : ℚ) * D / ((n : ℚ) - 1))) ∧
    (generate_video_description_run
        ⟨true, some D, n, none, false⟩).frames_written[0]? = some 0 ∧
    (generate_video_description_run
        ⟨true, some D, n, none, false⟩).frames_written[n.toNat - 1]? = some D ∧
    (generate_video_description_run
        ⟨true, some D, 1, none, false⟩).frames_written = [0] := by
  have hrun : generate_video_description_run ⟨true, some D, n, none, false⟩ =
      ⟨true, sample_timestamps D n, true, VDOutcome.ok⟩ := by
    unfold generate_video_description_run
    simp [not_le.mpr hD]
  have hrun1 : generate_video_description_run ⟨true, some D, 1, none, false⟩ =
      ⟨true, [0], true, VDOutcome.ok⟩ := by
    unfold generate_video_description_run
    simp [not_le.mpr hD, sample_timestamps]
  have hcast : ((n.toNat : ℕ) : ℚ) = (n : ℚ) := by
    have := Int.toNat_of_nonneg (by omega : (0:ℤ) ≤ n)
    exact_mod_cast congrArg (fun z : ℤ => (z : ℚ)) this
  refine ⟨?_, ?_, ?_, ?_, ?_⟩
  · rw [hrun]
    show (sample_timestamps D n).length = n.toNat
    unfold sample_timestamps
    rw [if_neg (by omega), List.length_map, List.length_range]
  · intro i hi
    rw [hrun]
    exact sample_timestamps_getElem D n hn i hi
  · rw [hrun]
    have h0 := sample_timestamps_getElem D n hn 0 (by omega)
    simpa using h0
  · rw [hrun]
    have hl := sample_timestamps_getElem D n hn (n.toNat - 1) (by omega)
    have hsub : ((n.toNat - 1 : ℕ) : ℚ) = (n : ℚ) - 1 := by
      have h1 : (1:ℕ) ≤ n.toNat := by omega
      push_cast [Nat.cast_sub h1]
      rw [hcast]
    have hne : (n : ℚ) - 1 ≠ 0 := by
      have h2 : (2:ℚ) ≤ (n:ℚ) := by exact_mod_cast hn
      linarith
    rw [hl, hsub, mul_comm, mul_div_assoc, div_self hne, mul_one]
  · rw [hrun1]

/-- Witness for C1 at the spec's end-to-end scenario: a 60-second video and
5 frames give 5 timestamps, the first 0, the middle 30, the last 60. -/
theorem c1_frame_timestamps_witness :
    (generate_video_description_run
        ⟨true, some 60, 5, none, false⟩).frames_written.length = 5 ∧
    (generate_video_description_run
        ⟨true, some 60, 5, none, false⟩).frames_written[0]? = some 0 ∧
    (generate_video_description_run
        ⟨true, some 60, 5, none, false⟩).frames_written[2]? = some 30 ∧
    (generate_video_description_run
        ⟨true, some 60, 5, none, false⟩).frames_written[4]? = some 60 := by
  have h := c1_frame_timestamps 60 5 (by norm_num) (by norm_num)
  refine ⟨h.1, h.2.2.1, ?_, h.2.2.2.1⟩
  have h2 := h.2.1 2 (by norm_num)
  rw [h2]
  norm_num

/-- C2 counterexample: calling `generate_video_description` with frame count
`N = 0` on an existing 10-second video raises no input error — the
`n_frames <= 1` branch treats it like `N = 1` and a frame file *is* written
(at timestamp 0), contradicting the claim that `N = 0` raises an input error
before any frame file is written. -/
theorem c2_counterexample :
    (generate_video_description_run ⟨true, some 10, 0, none, false⟩).outcome
        = VDOutcome.ok ∧
    (generate_video_description_run
        ⟨true, some 10, 0, none, false⟩).frames_written = [0] := by
  constructor <;> rfl

/-- C2 amended: with a non-positive duration (including the `None` duration
Python coerces to `0.0`), `generate_video_description` raises an input error
before any frame file is written; with `N = 0` and a positive duration it
raises no error and samples a single frame at timestamp 0 (the `N <= 1`
branch). -/
theorem c2_amended (o : VDOracle) (hp : o.path_exists = true)
    (hs : o.save_frame_fails_at = none) (hc : o.close_fails = false) :
    (o.raw_duration.getD 0 ≤ 0 →
      (generate_video_description_run o).frames_written = [] ∧
      (generate_video_description_run o).outcome = VDOutcome.zero_duration) ∧
    (0 < o.raw_duration.getD 0 → o.n_frames = 0 →
      (generate_video_description_run o).frames_written = [0] ∧
      (generate_video_description_run o).outcome = VDOutcome.ok) := by
  rcases o with ⟨pe, rd, nf, sf, cf⟩
  simp only at hp hs hc
  subst hp hs hc
  constructor
  · intro hd
    unfold generate_video_description_run
    simp only at hd
    simp [hd]
  · intro hd hn
    simp only at hd hn
    subst hn
    unfold generate_video_description_run
    simp [not_le.mpr hd, sample_timestamps]

/-- Witness for C2 (amended) on a video whose duration is negative: no frame
is written and the input error is raised. -/
theorem c2_amended_witness :
    (generate_video_description_run
        ⟨true, some (-3), 5, none, false⟩).frames_written = [] ∧
    (generate_video_description_run
        ⟨true, some (-3), 5, none, false⟩).outcome = VDOutcome.zero_duration :=
  (c2_amended ⟨true, some (-3), 5, none, false⟩ rfl rfl rfl).1 (by norm_num)

/-- C3 counterexample: (a) in `generate_video_description`, when
`video.save_frame` fails mid-pipeline and `video.close()` in the bare
`finally` also fails, the close failure propagates and masks the primary
error (outcome is `close_error`, not `save_frame_error`), contradicting
"release failures are swallowed, not propagated"; (b) in
`merge_video_with_audio`, when `AudioFileClip(audio_path)` raises, the
already-opened video clip is never closed, because both clips are opened
before the `try` block whose `finally` does the closing. -/
theorem c3_counterexample :
    (generate_video_description_run ⟨true, some 10, 2, some 1, true⟩).outcome
        = VDOutcome.close_error ∧
    (merge_run ⟨false, true, false, false, false, false, false⟩).video_opened
        = true ∧
    (merge_run
        ⟨false, true, false, false, false, false, false⟩).close_video_attempted
        = false := by
  refine ⟨?_, rfl, rfl⟩
  rfl

/-- C3 amended: in `merge_video_with_audio`, once both clips are opened (the
`try` block is entered), all three `close()` statements are executed on every
exit path and close failures are swallowed — the outcome is the same as with
no close failures; in `generate_video_description`, `video.close()` is
called on every exit path after the video is opened, but a failure in it
propagates as the call's exception (replacing any primary error) instead of
being swallowed; and if opening the narration clip fails in
`merge_video_with_audio`, the already-opened video clip is not closed. -/
theorem c3_amended (o : MergeOracle) (oo : VDOracle)
    (h1 : o.open_video_fails = false) (h2 : o.open_audio_fails = false)
    (h3 : oo.path_exists = true) :
    (merge_run o).close_added_attempted = true ∧
    (merge_run o).close_video_attempted = true ∧
    (merge_run o).close_final_attempted = true ∧
    (merge_run o).outcome = (merge_run
      ⟨o.open_video_fails, o.open_audio_fails, o.body_fails_before_final,
        o.write_fails, false, false, false⟩).outcome ∧
    (generate_video_description_run oo).close_called = true ∧
    (oo.close_fails = true →
      (generate_video_description_run oo).outcome = VDOutcome.close_error) := by
  rcases o with ⟨ovf, oaf, bf, wf, caf, cvf, cff⟩
  rcases oo with ⟨pe, rd, nf, sf, cf⟩
  simp only at h1 h2 h3
  subst h1 h2 h3
  refine ⟨?_, ?_, ?_, ?_, ?_, ?_⟩
  · rfl
  · rfl
  · rfl
  · rfl
  · unfold generate_video_description_run
    by_cases hd : (rd.getD 0 : ℚ) ≤ 0 <;> simp [hd]
  · intro hcf
    simp only at hcf
    subst hcf
    unfold generate_video_description_run
    by_cases hd : (rd.getD 0 : ℚ) ≤ 0 <;> simp [hd]

/-- Witness for C3 (amended): with a failing `write_videofile` and all three
closes failing, `merge_video_with_audio` still attempts every close and
reports the primary write error; with a failing `video.close()`,
`generate_video_description` reports the close error. -/
theorem c3_amended_witness :
    (merge_run
        ⟨false, false, false, true, true, true, true⟩).close_video_attempted
        = true ∧
    (merge_run ⟨false, false, false, true, true, true, true⟩).outcome
        = (merge_run ⟨false, false, false, true, false, false, false⟩).outcome ∧
    (generate_video_description_run ⟨true, some 10, 2, none, true⟩).outcome
        = VDOutcome.close_error :=
  ⟨(c3_amended ⟨false, false, false, true, true, true, true⟩
      ⟨true, some 10, 2, none, true⟩ rfl rfl rfl).2.1,
   (c3_amended ⟨false, false, false, true, true, true, true⟩
      ⟨true, some 10, 2, none, true⟩ rfl rfl rfl).2.2.2.1,
   (c3_amended ⟨false, false, false, true, true, true, true⟩
      ⟨true, some 10, 2, none, true⟩ rfl rfl rfl).2.2.2.2.2 rfl⟩

/-- Python `s.replace(pat, "")` on lists of characters: scan left to right;
where the pattern matches, delete it and continue scanning after the deleted
occurrence; otherwise keep the character and advance.  (`genai.py` only calls
`replace` with the non-empty literals of lines 60 and 121; the `pat ≠ []`
conjunct keeps the recursion well-founded.) -/
def replaceAll (pat : List Char) : List Char → List Char
  | [] => []
  | c :: rest =>
    if h : pat ≠ [] ∧ pat.isPrefixOf (c :: rest) then
      replaceAll pat ((c :: rest).drop pat.length)
    else
      c :: replaceAll pat rest
termination_by s => s.length
decreasing_by
  · have hp : 0 < pat.length := List.length_pos.mpr h.1
    simp only [List.length_drop, List.length_cons]
    omega
  · simp only [List.length_cons]
    omega

/-- Unfolding equation of `replaceAll` on the empty string. -/
theorem replaceAll_nil (pat : List Char) : replaceAll pat [] = [] := by
  rw [replaceAll]

/-- Unfolding equation of `replaceAll` at a match. -/
theorem replaceAll_cons_pos (pat : List Char) (c : Char) (rest : List Char)
    (h : pat ≠ [] ∧ pat.isPrefixOf (c :: rest)) :
    replaceAll pat (c :: rest)
      = replaceAll pat ((c :: rest).drop pat.length) := by
  rw [replaceAll, dif_pos h]

/-- Unfolding equation of `replaceAll` at a non-match. -/
theorem replaceAll_cons_neg (pat : List Char) (c : Char) (rest : List Char)
    (h : ¬ (pat ≠ [] ∧ pat.isPrefixOf (c :: rest))) :
    replaceAll pat (c :: rest) = c :: replaceAll pat rest := by
  rw [replaceAll, dif_neg h]

/-- If the output of removing occurrences of `[b, b, b]` starts with `b`,
so did the input: the kept head character is the input's head, and a removed
occurrence itself starts with `b`. -/
theorem replaceAll_head (b : Char) (s : List Char)
    (h : [b] <+: replaceAll [b, b, b] s) : [b] <+: s := by
  match s with
  | [] =>
    rw [replaceAll_nil] at h
    simp [List.prefix_nil] at h
  | c :: rest =>
    by_cases hm : ([b, b, b] : List Char) ≠ [] ∧
        List.isPrefixOf [b, b, b] (c :: rest)
    · have hp : ([b, b, b] : List Char) <+: c :: rest :=
        (List.isPrefixOf_iff_prefix).mp hm.2
      exact List.IsPrefix.trans ⟨[b, b], rfl⟩ hp
    · rw [replaceAll_cons_neg _ _ _ hm] at h
      obtain ⟨hb, -⟩ := (List.cons_prefix_cons).mp h
      subst hb
      exact (List.cons_prefix_cons).mpr ⟨rfl, List.nil_prefix⟩

/-- If the output of removing occurrences of `[b, b, b]` starts with
`[b, b]`, so did the input. -/
theorem replaceAll_head_two (b : Char) (s : List Char)
    (h : [b, b] <+: replaceAll [b, b, b] s) : [b, b] <+: s := by
  match s with
  | [] =>
    rw [replaceAll_nil] at h
    simp [List.prefix_nil] at h
  | c :: rest =>
    by_cases hm : ([b, b, b] : List Char) ≠ [] ∧
        List.isPrefixOf [b, b, b] (c :: rest)
    · have hp : ([b, b, b] : List Char) <+: c :: rest :=
        (List.isPrefixOf_iff_prefix).mp hm.2
      exact List.IsPrefix.trans ⟨[b], rfl⟩ hp
    · rw [replaceAll_cons_neg _ _ _ hm] at h
      obtain ⟨hb, h2⟩ := (List.cons_prefix_cons).mp h
      subst hb
      exact (List.cons_prefix_cons).mpr ⟨rfl, replaceAll_head b rest h2⟩

/-- Removing all occurrences of the three-character run `[b, b, b]` Python
`replace`-style leaves no occurrence of `[b, b, b]` in the output: pieces kept
before a deleted occurrence cannot end in `b` (the scanner would have matched
earlier), so deletions cannot splice a new occurrence together. -/
theorem replaceAll_no_run (b : Char) :
    ∀ (n : ℕ) (s : List Char), s.length ≤ n →
      ¬ ([b, b, b] <:+: replaceAll [b, b, b] s) := by
  intro n
  induction n with
  | zero =>
    intro s hs
    have h0 : s = [] := List.length_eq_zero.mp (Nat.le_zero.mp hs)
    subst h0
    rw [replaceAll_nil]
    simp [List.infix_nil]
  | succ n ih =>
    intro s hs
    match s with
    | [] =>
      rw [replaceAll_nil]
      simp [List.infix_nil]
    | c :: rest =>
      by_cases hm : ([b, b, b] : List Char) ≠ [] ∧
          List.isPrefixOf [b, b, b] (c :: rest)
      · rw [replaceAll_cons_pos _ _ _ hm]
        apply ih
        simp only [List.length_drop, List.length_cons]
        simp only [List.length_cons] at hs
        omega
      · rw [replaceAll_cons_neg _ _ _ hm]
        intro hinf
        rcases (List.infix_cons_iff).mp hinf with hpre | htail
        · obtain ⟨hb, h2⟩ := (List.cons_prefix_cons).mp hpre
          subst hb
          have h3 : [b, b] <+: rest := replaceAll_head_two b rest h2
          apply hm
          refine ⟨by simp, ?_⟩
          exact (List.isPrefixOf_iff_prefix).mpr
            ((List.cons_prefix_cons).mpr ⟨rfl, h3⟩)
        · refine ih rest ?_ htail
          simp only [List.length_cons] at hs
          omega

/-- Model of `genai.py` lines 60 and 121: strip code-fence markup from a backend
response, `response.replace("```html", "").replace("```", "")`. -/
def strip_fences (response : List Char) : List Char :=
  replaceAll ("```".toList) (replaceAll ("```html".toList) response)

/-- Model of `genai.py` lines 59-60, the value returned by `GenAI.generate_text`:
`completion.choices[0].message.content or ""`, fences stripped.  The backend
response content is the argument (`none` models Python `None`). -/
def generate_text (content : Option (List Char)) : List Char :=
  strip_fences (content.getD [])

/-- Model of `genai.py` lines 120-121, the value returned by
`GenAI.generate_image_description`: same response post-processing as
`generate_text`. -/
def generate_image_description (content : Option (List Char)) : List Char :=
  strip_fences (content.getD [])

/-- C7: the values returned by `generate_text` and
`generate_image_description` never contain the literal substrings
"```" or "```html", for every backend response (including an absent one). -/
theorem c7_no_fences (content : Option (List Char)) :
    ¬ ("```".toList <:+: generate_text content) ∧
    ¬ ("```html".toList <:+: generate_text content) ∧
    ¬ ("```".toList <:+: generate_image_description content) ∧
    ¬ ("```html".toList <:+: generate_image_description content) := by
  have hfence : ("```".toList : List Char)
      = [Char.ofNat 96, Char.ofNat 96, Char.ofNat 96] := by decide
  have hmain : ∀ s : List Char, ¬ ("```".toList <:+: strip_fences s) := by
    intro s
    unfold strip_fences
    rw [hfence]
    exact replaceAll_no_run (Char.ofNat 96)
      (replaceAll ("```html".toList) s).length _ le_rfl
  have hhtml : ∀ s : List Char, ¬ ("```html".toList <:+: strip_fences s) := by
    intro s hinf
    have hpre : ("```".toList : List Char) <+: "```html".toList := by decide
    exact hmain s (List.IsInfix.trans hpre.isInfix hinf)
  exact ⟨hmain _, hhtml _, hmain _, hhtml _⟩

/-- Model of `utils.py` line 66: the words-per-second rate, `200 / 60` (200 words per
minute over 60 seconds). -/
def wps : ℚ := 200 / 60

/-- Model of `utils.py` line 68: the maximum word budget `wps * duration_secs`. -/
def nwords_max (duration_secs : ℚ) : ℚ := wps * duration_secs

/-- Model of the Python float format spec .0f, idealised on rationals: round half to even to an
integer (the tie rule of float formatting; no claim here exercises a tie). -/
def roundHalfEven (q : ℚ) : ℤ :=
  if q - ⌊q⌋ < 1/2 then ⌊q⌋
  else if q - ⌊q⌋ > 1/2 then ⌊q⌋ + 1
  else if ⌊q⌋ % 2 = 0 then ⌊q⌋ else ⌊q⌋ + 1

/-- Model of `utils.py` lines 70-74: the caller-supplied instructions with the word
budget and the no-hashtags/no-emoji constraint appended. -/
def instructions_modified (instructions : String) (duration_secs : ℚ) :
    String :=
  instructions
    ++ "\nYour voiceover text should be less than "
    ++ toString (roundHalfEven (nwords_max duration_secs))
    ++ " words long. "
    ++ "Do not use any hashtags or emojis in the voiceover text as this will be read aloud."

/-- Model of `utils.py` lines 62-82, `generate_voiceover_text`: computes the word
budget from the video duration, appends the constraints to the caller's
instructions, and returns the backend's narration text as-is (no truncation
or local enforcement).  The vision backend is a black box from the
instructions sent to the text returned. -/
def generate_voiceover_text (instructions : String) (duration_secs : ℚ)
    (backend : String → String) : String :=
  backend (instructions_modified instructions duration_secs)

/-- C8: the word budget is `(200 / 60) * duration-in-seconds`; the budget and
the no-hashtags/no-emoji constraint are appended to the caller-supplied
instructions; for a 60-second video the stated budget is 200 words; and the
returned narration text is the backend's response used as-is. -/
theorem c8_word_budget (instructions : String) (d : ℚ)
    (backend : String → String) :
    nwords_max d = 200 / 60 * d ∧
    nwords_max 60 = 200 ∧
    generate_voiceover_text instructions d backend
      = backend (instructions
          ++ "\nYour voiceover text should be less than "
          ++ toString (roundHalfEven (nwords_max d))
          ++ " words long. "
          ++ "Do not use any hashtags or emojis in the voiceover text as this will be read aloud.") ∧
    roundHalfEven (nwords_max 60) = 200 := by
  refine ⟨rfl, by norm_num [nwords_max, wps], rfl, ?_⟩
  norm_num [nwords_max, wps, roundHalfEven]

/-- Python whitespace characters for `str.strip()` (the ASCII whitespace; the
pipeline never passes other Unicode space characters). -/
def isPySpace (c : Char) : Bool :=
  c == ' ' || c == '\t' || c == '\n' || c == '\r' || c == '\x0b' || c == '\x0c'

/-- Python `text.strip()`: drop whitespace from both ends. -/
def pyStrip (s : List Char) : List Char :=
  ((s.dropWhile isPySpace).reverse.dropWhile isPySpace).reverse

/-- Outcome of a `generate_audio` call. -/
inductive AudioOutcome where
  | ok
  | empty_text
deriving DecidableEq

/-- Observable trace of a `generate_audio` call: how many backend
text-to-speech calls were made, and the outcome. -/
structure AudioRun where
  backend_calls : ℕ
  outcome : AudioOutcome
deriving DecidableEq

/-- Model of `genai.py` lines 166-184, `GenAI.generate_audio`: raises `ValueError`
when `not text or not text.strip()` — before the backend call — and
otherwise makes exactly one `audio.speech.create` backend call. -/
def generate_audio (text : List Char) : AudioRun :=
  if text = [] ∨ pyStrip text = [] then ⟨0, .empty_text⟩
  else ⟨1, .ok⟩

/-- C9: for every text that is empty or consists only of whitespace,
`generate_audio` raises the input error before any backend call is
attempted: zero backend calls are made. -/
theorem c9_empty_text (text : List Char)
    (h : ∀ c ∈ text, isPySpace c = true) :
    (generate_audio text).backend_calls = 0 ∧
    (generate_audio text).outcome = AudioOutcome.empty_text := by
  have hdrop : text.dropWhile isPySpace = [] :=
    List.dropWhile_eq_nil_iff.mpr (by simpa using h)
  have hstrip : pyStrip text = [] := by
    unfold pyStrip
    rw [hdrop]
    rfl
  unfold generate_audio
  rw [if_pos (Or.inr hstrip)]
  exact ⟨rfl, rfl⟩

/-- Witness for C9 on the whitespace-only text " \n\t": no backend call. -/
theorem c9_empty_text_witness :
    (generate_audio (" \n\t".toList)).backend_calls = 0 ∧
    (generate_audio (" \n\t".toList)).outcome = AudioOutcome.empty_text :=
  c9_empty_text (" \n\t".toList) (by decide)
